import Mathlib

/-!
Shallow embedding of `rememfile.py`: a bookkeeping tool that records a
content hash for files and later reports which recorded paths share the
same content.

Modelling choices, each matching the source:

* The SQLite table `hashes (name TEXT PRIMARY KEY, hash TEXT)` is a list
  of `(name, hash)` rows in insertion order (`HashDatabase`).  SQL
  `REPLACE INTO` deletes any row with the conflicting primary key and then
  inserts the new row; `DELETE ... WHERE` filters rows out; `SELECT ...
  WHERE` filters or finds rows.
* `calculate_hash_digest` opens the file and streams it through SHA-256,
  returning `None` on `OSError`.  The composite of filesystem and hash
  function is abstracted as `fs : String → Option String`, mapping an
  absolute path to the hex digest of its content (or `none` when the file
  cannot be read).  A real digest is `hashlib.sha256().hexdigest()`, 64
  lowercase hexadecimal characters — in particular it is never the
  all-dash `sentinel`; theorems that need this take it as a hypothesis
  on `fs`.
* `os.path.abspath` is abstracted as `resolve : String → String`.
  `abspath` is idempotent; theorems that need this take it as a
  hypothesis on `resolve`.
-/

/-- The sentinel digest `"-"*64`, displayed when a file cannot be read. -/
def sentinel : String := "----------------------------------------------------------------"

/-- The `hashes` table: rows `(name, hash)` with `name` the primary key. -/
structure HashDatabase where
  rows : List (String × String)
deriving DecidableEq

namespace HashDatabase

/-- `REPLACE INTO hashes (name, hash) VALUES (?, ?)`: any row with the
conflicting primary key is deleted, then the new row is inserted. -/
def store_hash (db : HashDatabase) (name hash : String) : HashDatabase :=
  ⟨db.rows.filter (fun r => r.1 != name) ++ [(name, hash)]⟩

/-- `DELETE FROM hashes WHERE name = ?`. -/
def delete_by_name (db : HashDatabase) (name : String) : HashDatabase :=
  ⟨db.rows.filter (fun r => r.1 != name)⟩

/-- `DELETE FROM hashes WHERE hash = ?`. -/
def delete_by_hash (db : HashDatabase) (hash : String) : HashDatabase :=
  ⟨db.rows.filter (fun r => r.2 != hash)⟩

/-- `DELETE FROM hashes`. -/
def delete_all (_db : HashDatabase) : HashDatabase :=
  ⟨[]⟩

/-- `SELECT name, hash FROM hashes WHERE hash = ?` followed by `fetchall`. -/
def get_hashes (db : HashDatabase) (hash : String) : List (String × String) :=
  db.rows.filter (fun r => r.2 == hash)

/-- `SELECT name, hash FROM hashes WHERE name = ?` followed by `fetchone`. -/
def get_hash_by_name (db : HashDatabase) (name : String) : Option (String × String) :=
  db.rows.find? (fun r => r.1 == name)

/-- `SELECT COUNT(*) FROM hashes`. -/
def get_number_of_hashes (db : HashDatabase) : Nat :=
  db.rows.length

end HashDatabase

/-- `calculate_hash_digest`: SHA-256 of the file content at `filepath`, or
`none` on `OSError`.  The filesystem-plus-SHA-256 composite is the
abstract `fs`. -/
def calculate_hash_digest (fs : String → Option String) (filepath : String) : Option String :=
  fs filepath

/-- `_set_hash`: hash the file; on failure report `FILEERR` with the
sentinel and leave the store alone; on success classify against the prior
entry for the resolved path (`CREATED` / `UPDATED` / `NCHANGE`) and store
the new digest unless the state is `NCHANGE`.  Returns the `(state,
hexdigest)` pair of the source together with the resulting store. -/
def set_hash (fs : String → Option String) (resolve : String → String)
    (db : HashDatabase) (filepath : String) : (String × String) × HashDatabase :=
  let abspath := resolve filepath
  match calculate_hash_digest fs abspath with
  | none => (("FILEERR", sentinel), db)
  | some hexdigest =>
      let state :=
        match db.get_hash_by_name abspath with
        | none => "CREATED"
        | some (_, hash) => if hash ≠ hexdigest then "UPDATED" else "NCHANGE"
      ((state, hexdigest),
        if state ≠ "NCHANGE" then db.store_hash abspath hexdigest else db)

/-- `_set_hashes`: process each path in order, resolving it and threading
the store; collect `(state, hexdigest, abspath)` per path. -/
def set_hashes (fs : String → Option String) (resolve : String → String)
    (db : HashDatabase) (filepaths : List String) :
    List (String × String × String) × HashDatabase :=
  match filepaths with
  | [] => ([], db)
  | fp :: rest =>
      let abspath := resolve fp
      let r := set_hash fs resolve db abspath
      let next := set_hashes fs resolve r.2 rest
      ((r.1.1, r.1.2, abspath) :: next.1, next.2)

/-- `_get_hash`: hash the file; on failure report `ERR` with the sentinel
and an empty row list; on success fetch all rows sharing the digest and
report `HIT` when that list is non-empty, else `N/A`.  The store is only
read, never written, and is returned unchanged. -/
def get_hash (fs : String → Option String) (resolve : String → String)
    (db : HashDatabase) (filepath : String) :
    (String × String × List (String × String)) × HashDatabase :=
  let abspath := resolve filepath
  match calculate_hash_digest fs abspath with
  | none => (("ERR", sentinel, []), db)
  | some hexdigest =>
      let hashes := db.get_hashes hexdigest
      ((if hashes.isEmpty then "N/A" else "HIT", hexdigest, hashes), db)

/-- `_get_hashes`: process each path in order; collect
`(state, hexdigest, abspath, matching path names)` per path. -/
def get_hashes (fs : String → Option String) (resolve : String → String)
    (db : HashDatabase) (filepaths : List String) :
    List (String × String × String × List String) × HashDatabase :=
  match filepaths with
  | [] => ([], db)
  | fp :: rest =>
      let abspath := resolve fp
      let r := get_hash fs resolve db abspath
      let next := get_hashes fs resolve r.2 rest
      ((r.1.1, r.1.2.1, abspath, r.1.2.2.map Prod.fst) :: next.1, next.2)

/-- `_unset_hash`: look the resolved path up by name — no hashing is
performed, so no `fs` argument is even needed.  Present → `DELETED`,
remove the row, report its stored digest and name; absent → `NOENTRY`,
sentinel digest, empty name, store untouched. -/
def unset_hash (resolve : String → String) (db : HashDatabase) (filepath : String) :
    (String × String × String) × HashDatabase :=
  let abspath := resolve filepath
  match db.get_hash_by_name abspath with
  | some (name, hash) => (("DELETED", hash, name), db.delete_by_name abspath)
  | none => (("NOENTRY", sentinel, ""), db)

/-- `_unset_hashes`: process each path in order; collect
`(state, hash, abspath)` per path. -/
def unset_hashes (resolve : String → String) (db : HashDatabase) (filepaths : List String) :
    List (String × String × String) × HashDatabase :=
  match filepaths with
  | [] => ([], db)
  | fp :: rest =>
      let abspath := resolve fp
      let r := unset_hash resolve db abspath
      let next := unset_hashes resolve r.2 rest
      ((r.1.1, r.1.2.1, abspath) :: next.1, next.2)

/-- `_clear_hashes`: count the rows, then delete them all, reporting the
pre-deletion count.  The `filepaths` argument is accepted but never
read. -/
def clear_hashes (filepaths : List String) (db : HashDatabase) : Nat × HashDatabase :=
  let count := db.get_number_of_hashes
  (count, db.delete_all)

/-- `main`: dispatch on the action argument; recognized actions run their
workflow and fall through to `return 0`, anything else prints usage and
returns 2.  Modelled as the returned exit code together with the store
after the dispatched workflow. -/
def main_run (fs : String → Option String) (resolve : String → String)
    (action : String) (files : List String) (db : HashDatabase) :
    Nat × HashDatabase :=
  if action = "s" ∨ action = "set" then (0, (set_hashes fs resolve db files).2)
  else if action = "g" ∨ action = "get" then (0, (get_hashes fs resolve db files).2)
  else if action = "u" ∨ action = "unset" then (0, (unset_hashes resolve db files).2)
  else if action = "c" ∨ action = "clear" then (0, (clear_hashes files db).2)
  else (2, db)

/-- The store invariant guaranteed by the `name TEXT PRIMARY KEY` column:
at most one digest per path, i.e. pairwise distinct names among the rows. -/
def UniqueNames (db : HashDatabase) : Prop :=
  db.rows.Pairwise (fun a b => a.1 ≠ b.1)

instance (db : HashDatabase) : Decidable (UniqueNames db) :=
  List.instDecidablePairwise db.rows

example : set_hash (fun p => if p = "/a" then some "d1" else none) id ⟨[]⟩ "/a"
    = (("CREATED", "d1"), ⟨[("/a", "d1")]⟩) := by decide

example : set_hash (fun p => if p = "/a" then some "d1" else none) id ⟨[("/a", "d1")]⟩ "/a"
    = (("NCHANGE", "d1"), ⟨[("/a", "d1")]⟩) := by decide

example : set_hash (fun p => if p = "/a" then some "d2" else none) id ⟨[("/a", "d1")]⟩ "/a"
    = (("UPDATED", "d2"), ⟨[("/a", "d2")]⟩) := by decide

example : set_hash (fun _ => none) id ⟨[("/a", "d1")]⟩ "/a"
    = (("FILEERR", sentinel), ⟨[("/a", "d1")]⟩) := by decide

example : get_hash (fun _ => some "d1") id ⟨[("/a", "d1"), ("/b", "d2")]⟩ "/c"
    = (("HIT", "d1", [("/a", "d1")]), ⟨[("/a", "d1"), ("/b", "d2")]⟩) := by decide

example : unset_hash id ⟨[("/a", "d1"), ("/b", "d2")]⟩ "/a"
    = (("DELETED", "d1", "/a"), ⟨[("/b", "d2")]⟩) := by decide

example : clear_hashes ["/a"] ⟨[("/a", "d1"), ("/b", "d2")]⟩ = (2, ⟨[]⟩) := by decide

example : main_run (fun _ => none) id "set" ["/a"] ⟨[]⟩ = (0, ⟨[]⟩) := by decide

example : main_run (fun _ => none) id "frobnicate" ["/a"] ⟨[]⟩ = (2, ⟨[]⟩) := by decide

/-! ### Helper lemmas about the store -/

theorem find?_name_filter_ne (l : List (String × String)) (n : String) :
    (l.filter (fun r => r.1 != n)).find? (fun r => r.1 == n) = none := by
  apply List.find?_eq_none.mpr
  intro x hx hpx
  have hmem := List.mem_filter.mp hx
  have h1 : x.1 = n := by simpa using hpx
  have h2 : x.1 ≠ n := by simpa using hmem.2
  exact h2 h1

theorem get_hash_by_name_store_hash_self (db : HashDatabase) (n h : String) :
    (db.store_hash n h).get_hash_by_name n = some (n, h) := by
  unfold HashDatabase.store_hash HashDatabase.get_hash_by_name
  rw [List.find?_append, find?_name_filter_ne]
  simp [List.find?]

theorem get_hash_by_name_eq_some {db : HashDatabase} {n : String} {r : String × String}
    (hfind : db.get_hash_by_name n = some r) : r ∈ db.rows ∧ r.1 = n :=
  ⟨List.mem_of_find?_eq_some hfind, by simpa using List.find?_some hfind⟩

theorem self_mem_store_hash (db : HashDatabase) (n h : String) :
    (n, h) ∈ (db.store_hash n h).rows := by
  unfold HashDatabase.store_hash
  simp

theorem mem_store_hash {db : HashDatabase} {n h : String} {r : String × String}
    (hr : r ∈ (db.store_hash n h).rows) : r ∈ db.rows ∨ r = (n, h) := by
  unfold HashDatabase.store_hash at hr
  rcases List.mem_append.mp hr with h1 | h2
  · exact Or.inl (List.mem_filter.mp h1).1
  · exact Or.inr (by simpa using h2)

/-! ### Helper lemmas about the per-path workflow steps -/

theorem set_hash_fileerr (fs : String → Option String) (resolve : String → String)
    (db : HashDatabase) (fp : String) (hfail : fs (resolve fp) = none) :
    set_hash fs resolve db fp = (("FILEERR", sentinel), db) := by
  simp [set_hash, calculate_hash_digest, hfail]

theorem set_hash_created (fs : String → Option String) (resolve : String → String)
    (db : HashDatabase) (fp h : String) (hread : fs (resolve fp) = some h)
    (hnone : db.get_hash_by_name (resolve fp) = none) :
    set_hash fs resolve db fp = (("CREATED", h), db.store_hash (resolve fp) h) := by
  simp [set_hash, calculate_hash_digest, hread, hnone]
  intro hcon
  exact absurd hcon (by decide)

theorem set_hash_updated (fs : String → Option String) (resolve : String → String)
    (db : HashDatabase) (fp n d h : String) (hread : fs (resolve fp) = some h)
    (hfound : db.get_hash_by_name (resolve fp) = some (n, d)) (hne : d ≠ h) :
    set_hash fs resolve db fp = (("UPDATED", h), db.store_hash (resolve fp) h) := by
  simp [set_hash, calculate_hash_digest, hread, hfound, hne]
  intro hcon
  exact absurd hcon (by decide)

theorem set_hash_nchange (fs : String → Option String) (resolve : String → String)
    (db : HashDatabase) (fp n d h : String) (hread : fs (resolve fp) = some h)
    (hfound : db.get_hash_by_name (resolve fp) = some (n, d)) (heq : d = h) :
    set_hash fs resolve db fp = (("NCHANGE", h), db) := by
  subst heq
  simp [set_hash, calculate_hash_digest, hread, hfound]

theorem set_hash_db_cases (fs : String → Option String) (resolve : String → String)
    (db : HashDatabase) (fp : String) :
    (set_hash fs resolve db fp).2 = db
    ∨ ∃ h, fs (resolve fp) = some h
         ∧ (set_hash fs resolve db fp).2 = db.store_hash (resolve fp) h := by
  cases hread : fs (resolve fp) with
  | none => exact Or.inl (by rw [set_hash_fileerr fs resolve db fp hread])
  | some h =>
    cases hlook : db.get_hash_by_name (resolve fp) with
    | none =>
        exact Or.inr ⟨h, rfl, by rw [set_hash_created fs resolve db fp h hread hlook]⟩
    | some r =>
        obtain ⟨n, d⟩ := r
        by_cases hd : d = h
        · exact Or.inl (by rw [set_hash_nchange fs resolve db fp n d h hread hlook hd])
        · exact Or.inr ⟨h, rfl,
            by rw [set_hash_updated fs resolve db fp n d h hread hlook hd]⟩

theorem set_hash_success_mem (fs : String → Option String) (resolve : String → String)
    (db : HashDatabase) (fp h : String) (hread : fs (resolve fp) = some h) :
    (resolve fp, h) ∈ (set_hash fs resolve db fp).2.rows := by
  cases hlook : db.get_hash_by_name (resolve fp) with
  | none =>
      rw [set_hash_created fs resolve db fp h hread hlook]
      exact self_mem_store_hash db (resolve fp) h
  | some r =>
      obtain ⟨n, d⟩ := r
      obtain ⟨hmem, hfst⟩ := get_hash_by_name_eq_some hlook
      by_cases hd : d = h
      · rw [set_hash_nchange fs resolve db fp n d h hread hlook hd]
        have hn : n = resolve fp := hfst
        rw [← hn, ← hd]
        exact hmem
      · rw [set_hash_updated fs resolve db fp n d h hread hlook hd]
        exact self_mem_store_hash db (resolve fp) h

theorem get_hash_err (fs : String → Option String) (resolve : String → String)
    (db : HashDatabase) (fp : String) (hfail : fs (resolve fp) = none) :
    get_hash fs resolve db fp = (("ERR", sentinel, []), db) := by
  simp [get_hash, calculate_hash_digest, hfail]

theorem get_hash_success (fs : String → Option String) (resolve : String → String)
    (db : HashDatabase) (fp h : String) (hread : fs (resolve fp) = some h) :
    get_hash fs resolve db fp
      = ((if (db.get_hashes h).isEmpty then "N/A" else "HIT", h, db.get_hashes h), db) := by
  simp [get_hash, calculate_hash_digest, hread]

theorem get_hash_db (fs : String → Option String) (resolve : String → String)
    (db : HashDatabase) (fp : String) : (get_hash fs resolve db fp).2 = db := by
  cases hread : fs (resolve fp) with
  | none => rw [get_hash_err fs resolve db fp hread]
  | some h => rw [get_hash_success fs resolve db fp h hread]

theorem unset_hash_deleted (resolve : String → String) (db : HashDatabase)
    (fp n h : String) (hfound : db.get_hash_by_name (resolve fp) = some (n, h)) :
    unset_hash resolve db fp = (("DELETED", h, n), db.delete_by_name (resolve fp)) := by
  simp [unset_hash, hfound]

theorem unset_hash_noentry (resolve : String → String) (db : HashDatabase)
    (fp : String) (hnone : db.get_hash_by_name (resolve fp) = none) :
    unset_hash resolve db fp = (("NOENTRY", sentinel, ""), db) := by
  simp [unset_hash, hnone]

theorem unset_hash_rows_subset (resolve : String → String) (db : HashDatabase)
    (fp : String) {r : String × String}
    (hr : r ∈ (unset_hash resolve db fp).2.rows) : r ∈ db.rows := by
  cases hlook : db.get_hash_by_name (resolve fp) with
  | none => rw [unset_hash_noentry resolve db fp hlook] at hr; exact hr
  | some v =>
      obtain ⟨n, h⟩ := v
      rw [unset_hash_deleted resolve db fp n h hlook] at hr
      exact (List.mem_filter.mp hr).1

/-! ### C1 -/

/-- C1: a Set on a readable file: with no prior entry for the resolved path
the state is `CREATED` and the new entry is stored; with a prior entry of a
different digest the state is `UPDATED` and the entry's digest is replaced;
with a prior entry of the same digest the state is `NCHANGE` and the store
is untouched.  Consequently two consecutive Sets on an unchanged file yield
`CREATED` then `NCHANGE` and the stored digest is identical (the new digest)
after both calls. -/
theorem C1_set_transitions (fs : String → Option String) (resolve : String → String)
    (db : HashDatabase) (fp h : String) (hread : fs (resolve fp) = some h) :
    (db.get_hash_by_name (resolve fp) = none →
      set_hash fs resolve db fp = (("CREATED", h), db.store_hash (resolve fp) h))
    ∧ (∀ n d, db.get_hash_by_name (resolve fp) = some (n, d) → d ≠ h →
      set_hash fs resolve db fp = (("UPDATED", h), db.store_hash (resolve fp) h))
    ∧ (∀ n d, db.get_hash_by_name (resolve fp) = some (n, d) → d = h →
      set_hash fs resolve db fp = (("NCHANGE", h), db))
    ∧ (db.get_hash_by_name (resolve fp) = none →
      (set_hash fs resolve db fp).1.1 = "CREATED"
      ∧ (set_hash fs resolve (set_hash fs resolve db fp).2 fp).1.1 = "NCHANGE"
      ∧ (set_hash fs resolve (set_hash fs resolve db fp).2 fp).2
          = (set_hash fs resolve db fp).2
      ∧ ((set_hash fs resolve db fp).2).get_hash_by_name (resolve fp)
          = some (resolve fp, h)
      ∧ ((set_hash fs resolve (set_hash fs resolve db fp).2 fp).2).get_hash_by_name
          (resolve fp) = some (resolve fp, h)) := by
  refine ⟨fun hnone => set_hash_created fs resolve db fp h hread hnone,
          fun n d hfound hne => set_hash_updated fs resolve db fp n d h hread hfound hne,
          fun n d hfound heq => set_hash_nchange fs resolve db fp n d h hread hfound heq,
          fun hnone => ?_⟩
  have h1 := set_hash_created fs resolve db fp h hread hnone
  have hdb1 : (set_hash fs resolve db fp).2 = db.store_hash (resolve fp) h := by rw [h1]
  have hlook := get_hash_by_name_store_hash_self db (resolve fp) h
  have h2 := set_hash_nchange fs resolve (db.store_hash (resolve fp) h) fp
    (resolve fp) h h hread hlook rfl
  refine ⟨by rw [h1], ?_, ?_, ?_, ?_⟩
  · rw [hdb1, h2]
  · rw [hdb1, h2]
  · rw [hdb1]; exact hlook
  · rw [hdb1, h2]; exact hlook

/-- Witness for C1: concrete run of the `CREATED` branch. -/
theorem C1_set_transitions_witness :
    set_hash (fun p => if p = "/a" then some "d1" else none) id ⟨[]⟩ "/a"
      = (("CREATED", "d1"), HashDatabase.store_hash ⟨[]⟩ "/a" "d1") :=
  (C1_set_transitions (fun p => if p = "/a" then some "d1" else none) id ⟨[]⟩ "/a" "d1"
    (by decide)).1 (by decide)

/-! ### C2 -/

/-- C2: after a successful Set on file `F` whose content has digest `H`, a
Get on any file `G` whose content also has digest `H` (including `G = F`)
reports `HIT` and its result set contains `F`'s resolved path. -/
theorem C2_roundtrip (fs : String → Option String) (resolve : String → String)
    (db : HashDatabase) (F G H : String)
    (hF : fs (resolve F) = some H) (hG : fs (resolve G) = some H) :
    (get_hash fs resolve (set_hash fs resolve db F).2 G).1.1 = "HIT"
    ∧ resolve F ∈ ((get_hash fs resolve (set_hash fs resolve db F).2 G).1.2.2).map
        Prod.fst := by
  have hmem : (resolve F, H) ∈ (set_hash fs resolve db F).2.rows :=
    set_hash_success_mem fs resolve db F H hF
  have hmem2 : (resolve F, H) ∈ (set_hash fs resolve db F).2.get_hashes H := by
    unfold HashDatabase.get_hashes
    simp [hmem]
  have hne : ¬ (((set_hash fs resolve db F).2.get_hashes H).isEmpty = true) := by
    rw [List.isEmpty_iff]
    exact List.ne_nil_of_mem hmem2
  rw [get_hash_success fs resolve (set_hash fs resolve db F).2 G H hG]
  constructor
  · show (if ((set_hash fs resolve db F).2.get_hashes H).isEmpty then "N/A" else "HIT")
        = "HIT"
    rw [if_neg hne]
  · show resolve F ∈ ((set_hash fs resolve db F).2.get_hashes H).map Prod.fst
    exact List.mem_map_of_mem Prod.fst hmem2

/-- Witness for C2: set `/a`, then get `/b` with identical content. -/
theorem C2_roundtrip_witness :
    (get_hash (fun _ => some "d1") id (set_hash (fun _ => some "d1") id ⟨[]⟩ "/a").2
        "/b").1.1 = "HIT"
    ∧ id "/a" ∈ ((get_hash (fun _ => some "d1") id
        (set_hash (fun _ => some "d1") id ⟨[]⟩ "/a").2 "/b").1.2.2).map Prod.fst :=
  C2_roundtrip (fun _ => some "d1") id ⟨[]⟩ "/a" "/b" "d1" rfl rfl

/-! ### C3 -/

/-- C3: a Set on an unreadable file yields `FILEERR`, leaves the store
completely unchanged and reports the 64-character all-dash sentinel.  The
sentinel is never persisted by any operation: since a real
`sha256().hexdigest()` consists of hexadecimal characters only, `fs` never
produces the sentinel (taken as a hypothesis), and under that hypothesis
every operation preserves sentinel-freeness of the store. -/
theorem C3_set_read_failure (fs : String → Option String) (resolve : String → String)
    (db : HashDatabase) (fp : String) (hfail : fs (resolve fp) = none) :
    set_hash fs resolve db fp = (("FILEERR", sentinel), db)
    ∧ sentinel.length = 64
    ∧ (∀ c ∈ sentinel.data, c = '-')
    ∧ (∀ db2 : HashDatabase,
        (∀ p d, fs p = some d → d ≠ sentinel) →
        (∀ r ∈ db2.rows, r.2 ≠ sentinel) →
        ∀ q : String,
          (∀ r ∈ (set_hash fs resolve db2 q).2.rows, r.2 ≠ sentinel)
          ∧ (∀ r ∈ (get_hash fs resolve db2 q).2.rows, r.2 ≠ sentinel)
          ∧ (∀ r ∈ (unset_hash resolve db2 q).2.rows, r.2 ≠ sentinel)
          ∧ (∀ fps : List String, ∀ r ∈ (clear_hashes fps db2).2.rows,
              r.2 ≠ sentinel)) := by
  refine ⟨set_hash_fileerr fs resolve db fp hfail, by decide, by decide, ?_⟩
  intro db2 hfs hdb q
  refine ⟨?_, ?_, ?_, ?_⟩
  · intro r hr
    rcases set_hash_db_cases fs resolve db2 q with hcase | ⟨h, hread, hcase⟩
    · rw [hcase] at hr
      exact hdb r hr
    · rw [hcase] at hr
      rcases mem_store_hash hr with hin | heq
      · exact hdb r hin
      · rw [heq]
        exact hfs (resolve q) h hread
  · intro r hr
    rw [get_hash_db fs resolve db2 q] at hr
    exact hdb r hr
  · intro r hr
    exact hdb r (unset_hash_rows_subset resolve db2 q hr)
  · intro fps r hr
    simp [clear_hashes, HashDatabase.delete_all] at hr

/-- Witness for C3: Set on an unreadable file. -/
theorem C3_set_read_failure_witness :
    set_hash (fun _ => none) id ⟨[("/b", "d2")]⟩ "/a"
      = (("FILEERR", sentinel), ⟨[("/b", "d2")]⟩) :=
  (C3_set_read_failure (fun _ => none) id ⟨[("/b", "d2")]⟩ "/a" rfl).1

/-! ### C4 -/

theorem get_hashes_db (fs : String → Option String) (resolve : String → String)
    (db : HashDatabase) (fps : List String) : (get_hashes fs resolve db fps).2 = db := by
  induction fps generalizing db with
  | nil => rfl
  | cons fp rest ih => simp [get_hashes, get_hash_db, ih]

/-- C4: Get never modifies the store: both the per-path step `_get_hash` and
the whole-list workflow `_get_hashes` return the path-to-digest mapping
exactly as it was, for every input and whatever state results. -/
theorem C4_get_readonly (fs : String → Option String) (resolve : String → String)
    (db : HashDatabase) :
    (∀ fp, (get_hash fs resolve db fp).2 = db)
    ∧ (∀ fps, (get_hashes fs resolve db fps).2 = db) :=
  ⟨fun fp => get_hash_db fs resolve db fp, fun fps => get_hashes_db fs resolve db fps⟩

/-! ### C5 -/

/-- C5: Get classification: on a read failure the state is `ERR` with the
sentinel digest and the empty result set; on success the digest is the
computed one, the result set is exactly the stored rows whose digest equals
it, the state is `HIT` exactly when that set is non-empty and `N/A` exactly
when it is empty. -/
theorem C5_get_classification (fs : String → Option String) (resolve : String → String)
    (db : HashDatabase) (fp : String) :
    (fs (resolve fp) = none →
      get_hash fs resolve db fp = (("ERR", sentinel, []), db))
    ∧ (∀ h, fs (resolve fp) = some h →
      (get_hash fs resolve db fp).1.2.1 = h
      ∧ (get_hash fs resolve db fp).1.2.2 = db.get_hashes h
      ∧ (∀ r, r ∈ (get_hash fs resolve db fp).1.2.2 ↔ r ∈ db.rows ∧ r.2 = h)
      ∧ ((get_hash fs resolve db fp).1.1 = "HIT" ↔ db.get_hashes h ≠ [])
      ∧ ((get_hash fs resolve db fp).1.1 = "N/A" ↔ db.get_hashes h = [])) := by
  constructor
  · intro hfail
    exact get_hash_err fs resolve db fp hfail
  · intro h hread
    rw [get_hash_success fs resolve db fp h hread]
    refine ⟨rfl, rfl, ?_, ?_, ?_⟩
    · intro r
      show r ∈ db.get_hashes h ↔ r ∈ db.rows ∧ r.2 = h
      unfold HashDatabase.get_hashes
      simp
    · show (if (db.get_hashes h).isEmpty then "N/A" else "HIT") = "HIT"
          ↔ db.get_hashes h ≠ []
      by_cases hnil : db.get_hashes h = [] <;> simp [List.isEmpty_iff, hnil]
    · show (if (db.get_hashes h).isEmpty then "N/A" else "HIT") = "N/A"
          ↔ db.get_hashes h = []
      by_cases hnil : db.get_hashes h = [] <;> simp [List.isEmpty_iff, hnil]

/-- Witness for C5: Get on an unreadable file over a non-empty store. -/
theorem C5_get_classification_witness :
    get_hash (fun _ => none) id ⟨[("/a", "d1")]⟩ "/a"
      = (("ERR", sentinel, []), ⟨[("/a", "d1")]⟩) :=
  (C5_get_classification (fun _ => none) id ⟨[("/a", "d1")]⟩ "/a").1 rfl

/-! ### C6 -/

/-- C6: Unset is keyed purely on path identity (the embedded `unset_hash`
takes no filesystem argument at all, mirroring that `_unset_hash` never
hashes): when an entry for the resolved path exists the state is `DELETED`,
exactly that entry is removed and its stored digest and name are returned;
when none exists the state is `NOENTRY` with the sentinel digest and the
store is unchanged.  Immediately repeating Unset on the same path yields
`NOENTRY`. -/
theorem C6_unset (resolve : String → String) (db : HashDatabase) (fp : String) :
    (∀ n d, db.get_hash_by_name (resolve fp) = some (n, d) →
      (unset_hash resolve db fp).1 = ("DELETED", d, n)
      ∧ (∀ r, r ∈ (unset_hash resolve db fp).2.rows
          ↔ r ∈ db.rows ∧ r.1 ≠ resolve fp))
    ∧ (db.get_hash_by_name (resolve fp) = none →
      unset_hash resolve db fp = (("NOENTRY", sentinel, ""), db))
    ∧ (unset_hash resolve (unset_hash resolve db fp).2 fp).1.1 = "NOENTRY" := by
  refine ⟨?_, ?_, ?_⟩
  · intro n d hfound
    rw [unset_hash_deleted resolve db fp n d hfound]
    refine ⟨rfl, ?_⟩
    intro r
    show r ∈ (db.delete_by_name (resolve fp)).rows ↔ r ∈ db.rows ∧ r.1 ≠ resolve fp
    unfold HashDatabase.delete_by_name
    simp
  · intro hnone
    exact unset_hash_noentry resolve db fp hnone
  · have hnone2 : (unset_hash resolve db fp).2.get_hash_by_name (resolve fp) = none := by
      cases hlook : db.get_hash_by_name (resolve fp) with
      | none => rw [unset_hash_noentry resolve db fp hlook]; exact hlook
      | some v =>
          obtain ⟨n, d⟩ := v
          rw [unset_hash_deleted resolve db fp n d hlook]
          show (db.delete_by_name (resolve fp)).get_hash_by_name (resolve fp) = none
          unfold HashDatabase.delete_by_name HashDatabase.get_hash_by_name
          exact find?_name_filter_ne db.rows (resolve fp)
    rw [unset_hash_noentry resolve (unset_hash resolve db fp).2 fp hnone2]

/-- Witness for C6: Unset of a recorded path. -/
theorem C6_unset_witness :
    (unset_hash id ⟨[("/a", "d1")]⟩ "/a").1 = ("DELETED", "d1", "/a") :=
  (((C6_unset id ⟨[("/a", "d1")]⟩ "/a").1) "/a" "d1" (by decide)).1

/-! ### C7 -/

/-- C7: Clear reports exactly the pre-deletion entry count and afterwards
the store is empty: `count()` is `0`, and a Get on any readable file now
reports `N/A` (so no previously `HIT` query can still hit). -/
theorem C7_clear (fps : List String) (db : HashDatabase) :
    (clear_hashes fps db).1 = db.get_number_of_hashes
    ∧ (clear_hashes fps db).2.rows = []
    ∧ (clear_hashes fps db).2.get_number_of_hashes = 0
    ∧ (∀ (fs : String → Option String) (resolve : String → String) (fp h : String),
        fs (resolve fp) = some h →
        (get_hash fs resolve (clear_hashes fps db).2 fp).1.1 = "N/A") := by
  refine ⟨rfl, rfl, rfl, ?_⟩
  intro fs resolve fp h hread
  rw [get_hash_success fs resolve (clear_hashes fps db).2 fp h hread]
  rfl

/-- Witness for C7: Get after Clear on a store that previously hit. -/
theorem C7_clear_witness :
    (get_hash (fun _ => some "d1") id (clear_hashes [] ⟨[("/a", "d1")]⟩).2 "/a").1.1
      = "N/A" :=
  (C7_clear [] ⟨[("/a", "d1")]⟩).2.2.2 (fun _ => some "d1") id "/a" "d1" rfl

/-! ### C8 -/

theorem set_hash_state_fileerr_iff (fs : String → Option String)
    (resolve : String → String) (db : HashDatabase) (fp : String) :
    ((set_hash fs resolve db fp).1.1 = "FILEERR") ↔ fs (resolve fp) = none := by
  cases hread : fs (resolve fp) with
  | none =>
      rw [set_hash_fileerr fs resolve db fp hread]
      simp
  | some h =>
      constructor
      · intro hstate
        exfalso
        cases hlook : db.get_hash_by_name (resolve fp) with
        | none =>
            rw [set_hash_created fs resolve db fp h hread hlook] at hstate
            exact absurd (show ("CREATED" : String) = "FILEERR" from hstate) (by decide)
        | some r =>
            obtain ⟨n, d⟩ := r
            by_cases hd : d = h
            · rw [set_hash_nchange fs resolve db fp n d h hread hlook hd] at hstate
              exact absurd (show ("NCHANGE" : String) = "FILEERR" from hstate) (by decide)
            · rw [set_hash_updated fs resolve db fp n d h hread hlook hd] at hstate
              exact absurd (show ("UPDATED" : String) = "FILEERR" from hstate) (by decide)
      · intro hcon
        exact absurd hcon (Option.some_ne_none h)

theorem get_hash_state_err_iff (fs : String → Option String)
    (resolve : String → String) (db : HashDatabase) (fp : String) :
    ((get_hash fs resolve db fp).1.1 = "ERR") ↔ fs (resolve fp) = none := by
  cases hread : fs (resolve fp) with
  | none =>
      rw [get_hash_err fs resolve db fp hread]
      simp
  | some h =>
      rw [get_hash_success fs resolve db fp h hread]
      constructor
      · intro hstate
        exfalso
        have hstate2 : (if (db.get_hashes h).isEmpty then "N/A" else "HIT") = "ERR" :=
          hstate
        by_cases hnil : ((db.get_hashes h).isEmpty = true)
        · rw [if_pos hnil] at hstate2
          exact absurd hstate2 (by decide)
        · rw [if_neg hnil] at hstate2
          exact absurd hstate2 (by decide)
      · intro hcon
        exact absurd hcon (Option.some_ne_none h)

theorem set_hashes_length (fs : String → Option String) (resolve : String → String)
    (fps : List String) :
    ∀ db : HashDatabase, (set_hashes fs resolve db fps).1.length = fps.length := by
  induction fps with
  | nil => intro db; rfl
  | cons fp rest ih => intro db; simp [set_hashes, ih]

theorem get_hashes_length (fs : String → Option String) (resolve : String → String)
    (fps : List String) :
    ∀ db : HashDatabase, (get_hashes fs resolve db fps).1.length = fps.length := by
  induction fps with
  | nil => intro db; rfl
  | cons fp rest ih => intro db; simp [get_hashes, ih]

theorem set_hashes_getD (fs : String → Option String) (resolve : String → String)
    (hres : ∀ p, resolve (resolve p) = resolve p) (fps : List String) :
    ∀ (db : HashDatabase) (i : Nat), i < fps.length →
      ((((set_hashes fs resolve db fps).1.getD i ("", "", "")).1 = "FILEERR")
        ↔ fs (resolve (fps.getD i "")) = none)
      ∧ ((set_hashes fs resolve db fps).1.getD i ("", "", "")).2.2
          = resolve (fps.getD i "") := by
  induction fps with
  | nil => intro db i hi; simp at hi
  | cons fp rest ih =>
      intro db i hi
      cases i with
      | zero =>
          refine ⟨?_, rfl⟩
          show ((set_hash fs resolve db (resolve fp)).1.1 = "FILEERR")
            ↔ fs (resolve fp) = none
          rw [set_hash_state_fileerr_iff fs resolve db (resolve fp), hres fp]
      | succ j =>
          have hj : j < rest.length := by simpa using hi
          have hstep := ih (set_hash fs resolve db (resolve fp)).2 j hj
          simpa [set_hashes] using hstep

theorem get_hashes_getD (fs : String → Option String) (resolve : String → String)
    (hres : ∀ p, resolve (resolve p) = resolve p) (fps : List String) :
    ∀ (db : HashDatabase) (i : Nat), i < fps.length →
      ((((get_hashes fs resolve db fps).1.getD i ("", "", "", [])).1 = "ERR")
        ↔ fs (resolve (fps.getD i "")) = none) := by
  induction fps with
  | nil => intro db i hi; simp at hi
  | cons fp rest ih =>
      intro db i hi
      cases i with
      | zero =>
          show ((get_hash fs resolve db (resolve fp)).1.1 = "ERR")
            ↔ fs (resolve fp) = none
          rw [get_hash_state_err_iff fs resolve db (resolve fp), hres fp]
      | succ j =>
          have hj : j < rest.length := by simpa using hi
          have hstep := ih (get_hash fs resolve db (resolve fp)).2 j hj
          simpa [get_hashes] using hstep

theorem main_run_recognized (fs : String → Option String) (resolve : String → String)
    (action : String) (files : List String) (db : HashDatabase)
    (hact : action = "s" ∨ action = "set" ∨ action = "g" ∨ action = "get"
      ∨ action = "u" ∨ action = "unset" ∨ action = "c" ∨ action = "clear") :
    (main_run fs resolve action files db).1 = 0 := by
  rcases hact with h | h | h | h | h | h | h | h <;> subst h <;> simp [main_run]

/-- C8: a read failure is localized: for any input list, every input path
yields exactly one classified result in input order (the result list has
the same length, and the `i`-th result carries the `i`-th resolved path),
the `i`-th Set result is `FILEERR` (resp. `ERR` for Get) exactly when that
file cannot be read — so one failing element never prevents the others from
being classified — and every recognized action makes `main` return exit
code 0 whatever the per-file outcomes.  The hypothesis is the idempotence
of `os.path.abspath`. -/
theorem C8_error_localization (fs : String → Option String) (resolve : String → String)
    (hres : ∀ p, resolve (resolve p) = resolve p) (db : HashDatabase)
    (fps : List String) :
    (set_hashes fs resolve db fps).1.length = fps.length
    ∧ (get_hashes fs resolve db fps).1.length = fps.length
    ∧ (∀ i, i < fps.length →
        ((((set_hashes fs resolve db fps).1.getD i ("", "", "")).1 = "FILEERR")
          ↔ fs (resolve (fps.getD i "")) = none)
        ∧ ((set_hashes fs resolve db fps).1.getD i ("", "", "")).2.2
            = resolve (fps.getD i ""))
    ∧ (∀ i, i < fps.length →
        ((((get_hashes fs resolve db fps).1.getD i ("", "", "", [])).1 = "ERR")
          ↔ fs (resolve (fps.getD i "")) = none))
    ∧ (∀ (action : String) (files : List String) (db2 : HashDatabase),
        action = "s" ∨ action = "set" ∨ action = "g" ∨ action = "get"
          ∨ action = "u" ∨ action = "unset" ∨ action = "c" ∨ action = "clear" →
        (main_run fs resolve action files db2).1 = 0) :=
  ⟨set_hashes_length fs resolve fps db, get_hashes_length fs resolve fps db,
   fun i hi => set_hashes_getD fs resolve hres fps db i hi,
   fun i hi => get_hashes_getD fs resolve hres fps db i hi,
   fun action files db2 hact => main_run_recognized fs resolve action files db2 hact⟩

/-- Witness for C8: the first of two paths fails to read, the second is
still classified. -/
theorem C8_error_localization_witness :
    (((((set_hashes (fun p => if p = "/a" then some "d1" else none) id ⟨[]⟩
        ["/bad", "/a"]).1.getD 0 ("", "", "")).1 = "FILEERR")
      ↔ (fun p => if p = "/a" then some "d1" else none) (id (["/bad", "/a"].getD 0 ""))
          = none)
    ∧ ((set_hashes (fun p => if p = "/a" then some "d1" else none) id ⟨[]⟩
        ["/bad", "/a"]).1.getD 0 ("", "", "")).2.2 = id (["/bad", "/a"].getD 0 "")) :=
  (C8_error_localization (fun p => if p = "/a" then some "d1" else none) id
    (fun _ => rfl) ⟨[]⟩ ["/bad", "/a"]).2.2.1 0 (by decide)

/-! ### C9 -/

theorem uniqueNames_store_hash {db : HashDatabase} (hu : UniqueNames db)
    (n h : String) : UniqueNames (db.store_hash n h) := by
  show ((db.rows.filter (fun r => r.1 != n)) ++ [(n, h)]).Pairwise
    (fun a b => a.1 ≠ b.1)
  rw [List.pairwise_append]
  refine ⟨List.Pairwise.sublist (List.filter_sublist db.rows) hu, by simp, ?_⟩
  intro a ha b hb
  have ha2 := List.mem_filter.mp ha
  have hb2 : b = (n, h) := by simpa using hb
  have hne : a.1 ≠ n := by simpa using ha2.2
  rw [hb2]
  exact hne

theorem store_hash_filter_self (db : HashDatabase) (n h : String) :
    (db.store_hash n h).rows.filter (fun r => r.1 == n) = [(n, h)] := by
  show ((db.rows.filter (fun r => r.1 != n)) ++ [(n, h)]).filter (fun r => r.1 == n)
    = [(n, h)]
  rw [List.filter_append]
  have h1 : (db.rows.filter (fun r => r.1 != n)).filter (fun r => r.1 == n) = [] := by
    rw [List.filter_eq_nil_iff]
    intro a ha
    have ha2 := List.mem_filter.mp ha
    simpa using (by simpa using ha2.2 : a.1 ≠ n)
  rw [h1]
  simp

theorem uniqueNames_set_hash {db : HashDatabase} (hu : UniqueNames db)
    (fs : String → Option String) (resolve : String → String) (fp : String) :
    UniqueNames (set_hash fs resolve db fp).2 := by
  rcases set_hash_db_cases fs resolve db fp with hcase | ⟨h, _, hcase⟩
  · rw [hcase]; exact hu
  · rw [hcase]; exact uniqueNames_store_hash hu (resolve fp) h

theorem uniqueNames_unset_hash {db : HashDatabase} (hu : UniqueNames db)
    (resolve : String → String) (fp : String) :
    UniqueNames (unset_hash resolve db fp).2 := by
  cases hlook : db.get_hash_by_name (resolve fp) with
  | none => rw [unset_hash_noentry resolve db fp hlook]; exact hu
  | some v =>
      obtain ⟨n, d⟩ := v
      rw [unset_hash_deleted resolve db fp n d hlook]
      show (db.rows.filter (fun r => r.1 != resolve fp)).Pairwise (fun a b => a.1 ≠ b.1)
      exact List.Pairwise.sublist (List.filter_sublist db.rows) hu

theorem uniqueNames_set_hashes {db : HashDatabase} (hu : UniqueNames db)
    (fs : String → Option String) (resolve : String → String) (fps : List String) :
    UniqueNames (set_hashes fs resolve db fps).2 := by
  induction fps generalizing db with
  | nil => exact hu
  | cons fp rest ih =>
      show UniqueNames (set_hashes fs resolve (set_hash fs resolve db (resolve fp)).2
        rest).2
      exact ih (uniqueNames_set_hash hu fs resolve (resolve fp))

theorem uniqueNames_unset_hashes {db : HashDatabase} (hu : UniqueNames db)
    (resolve : String → String) (fps : List String) :
    UniqueNames (unset_hashes resolve db fps).2 := by
  induction fps generalizing db with
  | nil => exact hu
  | cons fp rest ih =>
      show UniqueNames (unset_hashes resolve (unset_hash resolve db (resolve fp)).2
        rest).2
      exact ih (uniqueNames_unset_hash hu resolve (resolve fp))

/-- C9: the store keeps at most one digest per path: starting from any store
with pairwise-distinct names, every operation preserves the property, and
storing a digest for an already-recorded path replaces the entry — after
`store_hash` the rows named `n` are exactly the single new row. -/
theorem C9_unique_invariant (fs : String → Option String) (resolve : String → String)
    (db : HashDatabase) (hu : UniqueNames db) :
    (∀ n h, UniqueNames (db.store_hash n h)
      ∧ (db.store_hash n h).rows.filter (fun r => r.1 == n) = [(n, h)])
    ∧ (∀ fp, UniqueNames (set_hash fs resolve db fp).2)
    ∧ (∀ fp, UniqueNames (get_hash fs resolve db fp).2)
    ∧ (∀ fp, UniqueNames (unset_hash resolve db fp).2)
    ∧ (∀ fps, UniqueNames (clear_hashes fps db).2)
    ∧ (∀ fps, UniqueNames (set_hashes fs resolve db fps).2)
    ∧ (∀ fps, UniqueNames (unset_hashes resolve db fps).2) :=
  ⟨fun n h => ⟨uniqueNames_store_hash hu n h, store_hash_filter_self db n h⟩,
   fun fp => uniqueNames_set_hash hu fs resolve fp,
   fun fp => by rw [get_hash_db fs resolve db fp]; exact hu,
   fun fp => uniqueNames_unset_hash hu resolve fp,
   fun _ => List.Pairwise.nil,
   fun fps => uniqueNames_set_hashes hu fs resolve fps,
   fun fps => uniqueNames_unset_hashes hu resolve fps⟩

/-- Witness for C9: overwriting a recorded path keeps a single row for it. -/
theorem C9_unique_invariant_witness :
    UniqueNames (HashDatabase.store_hash ⟨[("/a", "d1"), ("/b", "d2")]⟩ "/a" "d3")
    ∧ (HashDatabase.store_hash ⟨[("/a", "d1"), ("/b", "d2")]⟩ "/a" "d3").rows.filter
        (fun r => r.1 == "/a") = [("/a", "d3")] :=
  (C9_unique_invariant (fun _ => none) id ⟨[("/a", "d1"), ("/b", "d2")]⟩
    (by decide)).1 "/a" "d3"

/-! ### C10 -/

/-- C10: Clear ignores its file-path arguments entirely: any two argument
lists produce the identical result (count and resulting store), which is
always the full pre-deletion count together with the emptied store — so
passing specific files does not restrict the deletion. -/
theorem C10_clear_ignores_files (db : HashDatabase) (fps1 fps2 : List String) :
    clear_hashes fps1 db = clear_hashes fps2 db
    ∧ clear_hashes fps1 db = (db.get_number_of_hashes, db.delete_all) :=
  ⟨rfl, rfl⟩
